import Mathlib

/-!
Shallow embedding of `src/backend/routes/coh.py`, a single-shot exporter that
pages through a cost-optimization recommendation listing and writes the
records to a CSV file.  Python dictionaries holding a record are modelled as
lookup functions `String → Option String` (`dict.get` semantics), a response
page as its `HTTPStatusCode` (absent metadata gives `none`) together with its
item list, the CSV file as the list of rows written so far, and the local
filesystem as a map from path to file content.
-/

namespace Coh

/-- A recommendation record: `item.get(key)` returns the field value or
`None` when the field is absent. -/
abbrev Item := String → Option String

/-- One CSV row as written by `csv_writer.writerow`; a `none` cell is an
absent field and renders as the empty cell. -/
abbrev Row := List (Option String)

/-- One page of the paginated listing: the transport status
`page.get('ResponseMetadata', \x7b\x7d).get('HTTPStatusCode')` (so `none` when
the metadata or the code is missing) and the `items` list. -/
structure Page where
  httpStatusCode : Option Nat
  items : List Item

/-- The `header` literal of the source, lines 49-57. -/
def header : List String :=
  ["Account ID", "Action Type", "Currency Code", "Current Resource Summary",
   "Current Resource Type", "Estimated Monthly Cost", "Estimated Monthly Savings",
   "Estimated Savings Percentage", "Implementation Effort", "Last Refresh Timestamp",
   "Recommendation ID", "Recommendation Lookback Period In Days",
   "Recommended Resource Summary", "Recommended Resource Type", "Region",
   "Resource ARN", "Resource ID", "Restart Needed", "Rollback Possible",
   "Source", "Tags"]

/-- The header as it is written to the file: every declared column name is a
present cell. -/
def headerRow : Row := header.map some

/-- The `row` literal built for one item, lines 80-91: a fixed sequence of
`item.get(...)` lookups. -/
def rowOfItem (item : Item) : Row :=
  [item "accountId", item "actionType", item "currencyCode",
   item "currentResourceSummary", item "currentResourceType",
   item "estimatedMonthlyCost", item "estimatedMonthlySavings",
   item "estimatedSavingsPercentage", item "implementationEffort",
   item "lastRefreshTimestamp", item "recommendationId",
   item "recommendationLookbackPeriodInDays",
   item "recommendedResourceSummary", item "recommendedResourceType",
   item "region", item "resourceArn", item "resourceId",
   item "restartNeeded", item "rollbackPossible",
   item "source", item "tags"]

/-- The record field keys in the order their columns appear in a row. -/
def fieldKeys : List String :=
  ["accountId", "actionType", "currencyCode",
   "currentResourceSummary", "currentResourceType",
   "estimatedMonthlyCost", "estimatedMonthlySavings",
   "estimatedSavingsPercentage", "implementationEffort",
   "lastRefreshTimestamp", "recommendationId",
   "recommendationLookbackPeriodInDays",
   "recommendedResourceSummary", "recommendedResourceType",
   "region", "resourceArn", "resourceId",
   "restartNeeded", "rollbackPossible",
   "source", "tags"]

/-- The body of the `for page in page_iterator` loop, lines 76-92: a page
whose status differs from 200 is skipped (`continue`), otherwise each of its
items is appended to the file as a row. -/
def processPage (file : List Row) (page : Page) : List Row :=
  if page.httpStatusCode ≠ some 200 then file
  else page.items.foldl (fun f item => f ++ [rowOfItem item]) file

/-- The whole write phase, lines 46-92: the file is opened empty
(mode `w` truncates), the header row is written first, then every page is
processed in order. -/
def runExport (pages : List Page) : List Row :=
  pages.foldl processPage [headerRow]

/-- The file content observed mid-run, after the header write and the first
`k` pages: the state a crash during page `k+1` would leave behind. -/
def runPartial (pages : List Page) (k : Nat) : List Row :=
  (pages.take k).foldl processPage [headerRow]

/-- Whether the loop keeps a page (HTTP status is exactly 200). -/
def pageOk (page : Page) : Bool := page.httpStatusCode = some 200

/-- The rows a single page contributes to the file. -/
def pageRows (page : Page) : List Row :=
  if page.httpStatusCode = some 200 then page.items.map rowOfItem else []

/-- The local filesystem: a map from path to the rows of the file stored
there. -/
abbrev FS := String → Option (List Row)

/-- One invocation of the script against a filesystem: `open(csv_filename,
'w')` truncates whatever was at the path and the run writes the full
content; every other path is untouched. -/
def runExportFs (fs : FS) (path : String) (pages : List Page) : FS :=
  fun p => if p = path then some (runExport pages) else fs p

/-- Decimal digit character of `d % 10`, as `strftime` renders one digit. -/
def digitChar (d : Nat) : Char :=
  if d % 10 = 0 then '0' else if d % 10 = 1 then '1'
  else if d % 10 = 2 then '2' else if d % 10 = 3 then '3'
  else if d % 10 = 4 then '4' else if d % 10 = 5 then '5'
  else if d % 10 = 6 then '6' else if d % 10 = 7 then '7'
  else if d % 10 = 8 then '8' else '9'

/-- `datetime.now().strftime('%Y%m')`, line 28, for a run date with the given
year and month: the year zero-padded to four digits followed by the month
zero-padded to two. -/
def strftimeYM (y m : Nat) : String :=
  ⟨[digitChar (y / 1000), digitChar (y / 100), digitChar (y / 10), digitChar y,
    digitChar (m / 10), digitChar m]⟩

/-- `os.path.join(a, b)` on POSIX: an absolute second part replaces the
first; otherwise the parts are joined, inserting a separator unless the
first part is empty or already ends with one. -/
def posixJoin (a b : String) : String :=
  if b.data.head? = some '/' then b
  else if a = "" ∨ a.data.getLast? = some '/' then a ++ b
  else a ++ "/" ++ b

/-- `folder_path = os.path.join(local_root, client_name, current_date)`,
line 36. -/
def folder_path (localRoot clientName currentDate : String) : String :=
  posixJoin (posixJoin localRoot clientName) currentDate

/-- `csv_filename = os.path.join(folder_path,
f'[clientName]_recommendations.csv')`, line 43. -/
def csv_filename (localRoot clientName currentDate : String) : String :=
  posixJoin (folder_path localRoot clientName currentDate)
    (clientName ++ "_recommendations.csv")

/-- A value an environment lookup can resolve to: `os.environ` itself only
holds strings, but the `default` argument may be a list or tuple of
strings. -/
inductive EnvVal where
  | str (s : String)
  | list (xs : List String)
deriving DecidableEq

/-- `get_env_str`, lines 7-17: read `os.environ.get(name, default)`, join a
list or tuple value with commas, raise `RuntimeError` when the value is
`None` and `required`, and otherwise return the string (or `None`).  The
environment is the map `env`; `Except.error` models the raise. -/
def get_env_str (env : String → Option String) (name : String)
    (default : Option EnvVal) (required : Bool) : Except String (Option String) :=
  let val : Option EnvVal :=
    match env name with
    | some s => some (.str s)
    | none => default
  let val2 : Option String :=
    match val with
    | some (.list xs) => some (String.intercalate "," xs)
    | some (.str s) => some s
    | none => none
  if val2 = none ∧ required then
    .error ("Missing required environment variable: " ++ name)
  else
    .ok val2

/-- Sample record with only `accountId` set, for concrete evaluation. -/
def itemA : Item := fun k => if k = "accountId" then some "111" else none

/-- Sample record with only `accountId` set, for concrete evaluation. -/
def itemB : Item := fun k => if k = "accountId" then some "222" else none

/-- Sample record with only `accountId` set, for concrete evaluation. -/
def itemC : Item := fun k => if k = "accountId" then some "333" else none

/-- Sample successful page holding `itemA`. -/
def pageA : Page := ⟨some 200, [itemA]⟩

/-- Sample failed page (HTTP 500) holding `itemB`. -/
def pageB : Page := ⟨some 500, [itemB]⟩

/-- Sample successful page holding `itemC`. -/
def pageC : Page := ⟨some 200, [itemC]⟩

/-- Sample page sequence whose middle page fails its status check. -/
def pagesW : List Page := [pageA, pageB, pageC]

/-- Sample environment holding exactly the variable `PRESENT`. -/
def envW : String → Option String :=
  fun n => if n = "PRESENT" then some "value" else none

theorem foldl_append_rows (items : List Item) :
    ∀ file : List Row,
      items.foldl (fun f item => f ++ [rowOfItem item]) file
        = file ++ items.map rowOfItem := by
  induction items with
  | nil => intro file; simp
  | cons a as ih =>
      intro file
      simp only [List.foldl_cons, List.map_cons]
      rw [ih]
      simp

theorem processPage_eq (file : List Row) (page : Page) :
    processPage file page = file ++ pageRows page := by
  unfold processPage pageRows
  by_cases h : page.httpStatusCode = some 200
  · rw [if_neg (by simpa using h), if_pos h, foldl_append_rows]
  · rw [if_pos h, if_neg h, List.append_nil]

theorem foldl_processPage (pages : List Page) :
    ∀ init : List Row,
      pages.foldl processPage init = init ++ pages.flatMap pageRows := by
  induction pages with
  | nil => intro init; simp
  | cons p ps ih =>
      intro init
      simp only [List.foldl_cons, List.flatMap_cons]
      rw [processPage_eq, ih, List.append_assoc]

theorem flatMap_pageRows (pages : List Page) :
    pages.flatMap pageRows
      = (pages.filter pageOk).flatMap (fun p => p.items.map rowOfItem) := by
  induction pages with
  | nil => rfl
  | cons p ps ih =>
      by_cases h : p.httpStatusCode = some 200
      · rw [List.flatMap_cons, List.filter_cons_of_pos (by simpa [pageOk] using h),
          List.flatMap_cons, ih]
        simp [pageRows, h]
      · rw [List.flatMap_cons, List.filter_cons_of_neg (by simpa [pageOk] using h),
          ih]
        simp [pageRows, h]

theorem runExport_eq (pages : List Page) :
    runExport pages = headerRow :: pages.flatMap pageRows := by
  unfold runExport
  rw [foldl_processPage]
  rfl

theorem digitChar_ne_slash (d : Nat) : digitChar d ≠ '/' := by
  unfold digitChar
  split_ifs <;> decide

theorem data_ne_nil_of_ne_empty {s : String} (h : s ≠ "") : s.data ≠ [] :=
  fun hd => h (congrArg String.mk hd)

theorem flatMap_eraseIdx_of_empty :
    ∀ (pages : List Page) (n : Nat) (page : Page),
      pages[n]? = some page → pageRows page = [] →
      pages.flatMap pageRows = (pages.eraseIdx n).flatMap pageRows := by
  intro pages
  induction pages with
  | nil => intro n page h _; simp at h
  | cons p ps ih =>
      intro n page h hempty
      cases n with
      | zero =>
          have hp : p = page := by simpa using h
          subst hp
          show pageRows p ++ ps.flatMap pageRows = ps.flatMap pageRows
          rw [hempty, List.nil_append]
      | succ k =>
          have hk : ps[k]? = some page := by simpa using h
          show pageRows p ++ ps.flatMap pageRows
            = pageRows p ++ (ps.eraseIdx k).flatMap pageRows
          rw [ih k page hk hempty]

/-- Claim C1 (counterexample): on the concrete run with zero pages, the
first row written to the file does not have 20 cells, refuting "the header
row written first to the output CSV has exactly 20 columns". -/
theorem first_row_not_20_cols :
    ¬ ((runExport []).head?.map List.length = some 20) := by decide

/-- Claim C1 (amended): for every run, the header row written first to the
output CSV has exactly 21 columns, being the declared column list in its
fixed order, regardless of how many pages or records are returned. -/
theorem first_row_is_21_col_header :
    ∀ pages : List Page,
      (runExport pages).head? = some (header.map some) ∧ header.length = 21 := by
  intro pages
  refine ⟨?_, rfl⟩
  rw [runExport_eq]
  rfl

/-- Claim C2: a page whose transport status is not 200 contributes nothing:
the run's output equals the output of the run with that page removed, so its
items are absent while all other pages' items are present in their original
relative order (and the run still completes, raising nothing). -/
theorem failed_page_dropped (pages : List Page) (n : Nat) (page : Page)
    (hget : pages[n]? = some page) (hbad : page.httpStatusCode ≠ some 200) :
    runExport pages = runExport (pages.eraseIdx n) := by
  rw [runExport_eq, runExport_eq,
    flatMap_eraseIdx_of_empty pages n page hget
      (by unfold pageRows; rw [if_neg hbad])]

/-- Claim C2 (witness): in the concrete three-page sequence whose middle
page carries HTTP 500, dropping that page leaves the output unchanged. -/
theorem failed_page_dropped_witness :
    pagesW[1]? = some pageB ∧ pageB.httpStatusCode ≠ some 200
      ∧ runExport pagesW = runExport (pagesW.eraseIdx 1) :=
  ⟨rfl, by decide, failed_page_dropped pagesW 1 pageB rfl (by decide)⟩

/-- Claim C3: the row built for an item is exactly the item looked up at the
21 field keys in their fixed column order; the keys are pairwise distinct,
so a field absent from the record yields `none` in exactly its own column
and every other cell depends only on its own field; lookup is total, so a
missing field never raises. -/
theorem row_cells_follow_fieldKeys :
    (∀ item : Item, rowOfItem item = fieldKeys.map item)
    ∧ fieldKeys.Nodup
    ∧ ∀ (item : Item) (i : Nat), (rowOfItem item)[i]? = fieldKeys[i]?.map item := by
  refine ⟨fun item => rfl, by decide, fun item i => ?_⟩
  have h : rowOfItem item = fieldKeys.map item := rfl
  rw [h, List.getElem?_map]

/-- Claim C4: for every client name (non-empty, not starting or ending with
a separator), local root ending with a separator, and run date, the resolved
output path is the root, client, six-digit year-month and
`clientName_recommendations.csv` joined by single separators. -/
theorem csv_filename_spec (localRoot clientName : String) (y m : Nat)
    (h1 : localRoot.data.getLast? = some '/')
    (h2 : clientName.data.head? ≠ some '/')
    (h3 : clientName.data.getLast? ≠ some '/')
    (h4 : clientName ≠ "") :
    csv_filename localRoot clientName (strftimeYM y m)
      = localRoot ++ clientName ++ "/" ++ strftimeYM y m ++ "/"
          ++ (clientName ++ "_recommendations.csv")
    ∧ (strftimeYM y m).length = 6 := by
  have hcl : clientName.data ≠ [] := data_ne_nil_of_ne_empty h4
  have hym_head : (strftimeYM y m).data.head? = some (digitChar (y / 1000)) := rfl
  have hym_last : (strftimeYM y m).data.getLast? = some (digitChar m) := by
    simp [strftimeYM]
  have hym_ne : (strftimeYM y m).data ≠ [] := by
    intro h
    rw [h] at hym_head
    exact Option.noConfusion hym_head
  refine ⟨?_, rfl⟩
  unfold csv_filename folder_path
  have step1 : posixJoin localRoot clientName = localRoot ++ clientName := by
    unfold posixJoin
    rw [if_neg h2, if_pos (Or.inr h1)]
  rw [step1]
  have hrc_ne : localRoot ++ clientName ≠ "" := by
    intro h
    have := congrArg String.data h
    rw [String.data_append] at this
    exact hcl (List.append_eq_nil.mp this).2
  have hrc_last : (localRoot ++ clientName).data.getLast? = clientName.data.getLast? := by
    rw [String.data_append, List.getLast?_append_of_ne_nil _ hcl]
  have step2 : posixJoin (localRoot ++ clientName) (strftimeYM y m)
      = localRoot ++ clientName ++ "/" ++ strftimeYM y m := by
    unfold posixJoin
    rw [if_neg (by rw [hym_head]; intro h; exact digitChar_ne_slash _ (Option.some.inj h)),
      if_neg (by rw [hrc_last]; exact not_or.mpr ⟨hrc_ne, h3⟩)]
  rw [step2]
  have hfile_head : (clientName ++ "_recommendations.csv").data.head?
      = clientName.data.head? := by
    rw [String.data_append, List.head?_append_of_ne_nil _ hcl]
  have hall_last : (localRoot ++ clientName ++ "/" ++ strftimeYM y m).data.getLast?
      = some (digitChar m) := by
    rw [String.data_append, List.getLast?_append_of_ne_nil _ hym_ne, hym_last]
  have hall_ne : localRoot ++ clientName ++ "/" ++ strftimeYM y m ≠ "" := by
    intro h
    have := congrArg String.data h
    rw [String.data_append] at this
    exact hym_ne (List.append_eq_nil.mp this).2
  unfold posixJoin
  rw [if_neg (by rw [hfile_head]; exact h2),
    if_neg (not_or.mpr ⟨hall_ne, by
      rw [hall_last]; intro h; exact digitChar_ne_slash m (Option.some.inj h)⟩)]

/-- Claim C4 (witness): for client "Acme", root "/data/" and a July 2024
run date, the resolved path is `/data/Acme/202407/Acme_recommendations.csv`. -/
theorem csv_filename_spec_witness :
    csv_filename "/data/" "Acme" (strftimeYM 2024 7)
      = "/data/Acme/202407/Acme_recommendations.csv" := by
  have h := (csv_filename_spec "/data/" "Acme" 2024 7 (by decide) (by decide)
    (by decide) (by decide)).1
  rw [h]
  decide

/-- Claim C5: the rows of the output file are the header followed by
exactly the concatenation, in page order, of each successful page's items
mapped to rows in item order — no sorting, deduplication or reordering. -/
theorem rows_in_page_and_item_order :
    ∀ pages : List Page,
      runExport pages
        = headerRow
            :: (pages.filter pageOk).flatMap (fun p => p.items.map rowOfItem) := by
  intro pages
  rw [runExport_eq, flatMap_pageRows]

/-- Claim C6: running the exporter twice at the same path with identical
pages leaves the filesystem exactly as one run does (the second run fully
overwrites the first, no accumulation), and the file at the path holds
exactly the one run's content. -/
theorem rerun_overwrites_idempotent :
    ∀ (fs : FS) (path : String) (pages : List Page),
      runExportFs (runExportFs fs path pages) path pages = runExportFs fs path pages
      ∧ runExportFs fs path pages path = some (runExport pages) := by
  intro fs path pages
  constructor
  · funext p
    unfold runExportFs
    by_cases h : p = path <;> simp [h]
  · unfold runExportFs
    simp

/-- Claim C7: when the paginated listing returns zero pages, the output
file is exactly the header row and no data rows. -/
theorem zero_pages_header_only : runExport [] = [headerRow] := rfl

/-- Claim C8: `get_env_str` returns a present variable's value as a string;
when the variable is absent a list default resolves to the comma-joined
string of its elements and a string default to itself; when the value
resolves to `None` it raises a `RuntimeError` naming the variable if
`required`, and returns `None` otherwise. -/
theorem get_env_str_spec (env : String → Option String) (name : String)
    (default : Option EnvVal) (required : Bool) :
    (∀ s, env name = some s →
      get_env_str env name default required = .ok (some s))
    ∧ (∀ xs, env name = none → default = some (.list xs) →
      get_env_str env name default required
        = .ok (some (String.intercalate "," xs)))
    ∧ (∀ s, env name = none → default = some (.str s) →
      get_env_str env name default required = .ok (some s))
    ∧ (env name = none → default = none → required = true →
      get_env_str env name default required
        = .error ("Missing required environment variable: " ++ name))
    ∧ (env name = none → default = none → required = false →
      get_env_str env name default required = .ok none) := by
  refine ⟨?_, ?_, ?_, ?_, ?_⟩
  · intro s hs
    unfold get_env_str
    rw [hs]
    simp
  · intro xs h1 h2
    unfold get_env_str
    rw [h1, h2]
    simp
  · intro s h1 h2
    unfold get_env_str
    rw [h1, h2]
    simp
  · intro h1 h2 h3
    unfold get_env_str
    rw [h1, h2, h3]
    simp
  · intro h1 h2 h3
    unfold get_env_str
    rw [h1, h2, h3]
    simp

/-- Claim C8 (witness): on a concrete environment, a present variable comes
back as its string, an absent one with a list default comes back
comma-joined, and an absent required one raises the naming error. -/
theorem get_env_str_spec_witness :
    get_env_str envW "PRESENT" none true = .ok (some "value")
    ∧ get_env_str envW "ABSENT" (some (.list ["a", "b"])) false = .ok (some "a,b")
    ∧ get_env_str envW "MISSING" none true
        = .error ("Missing required environment variable: " ++ "MISSING") :=
  ⟨(get_env_str_spec envW "PRESENT" none true).1 "value" rfl,
   ((get_env_str_spec envW "ABSENT" (some (.list ["a", "b"])) false).2.1
      ["a", "b"] rfl rfl).trans (by rfl),
   (get_env_str_spec envW "MISSING" none true).2.2.2.1 rfl rfl rfl⟩

/-- Claim C9: every row built from an item has exactly as many cells as the
header (21), and consequently every line of the output file — header or
data — has the header's arity. -/
theorem row_arity_matches_header :
    (∀ item : Item, (rowOfItem item).length = header.length)
    ∧ header.length = 21
    ∧ ∀ (pages : List Page) (r : Row), r ∈ runExport pages →
        r.length = header.length := by
  refine ⟨fun item => rfl, rfl, fun pages r hr => ?_⟩
  rw [runExport_eq] at hr
  rcases List.mem_cons.mp hr with hr | hr
  · subst hr
    simp [headerRow]
  · rcases List.mem_flatMap.mp hr with ⟨p, _, hp⟩
    unfold pageRows at hp
    by_cases h : p.httpStatusCode = some 200
    · rw [if_pos h] at hp
      rcases List.mem_map.mp hp with ⟨item, _, hi⟩
      subst hi
      rfl
    · rw [if_neg h] at hp
      simp at hp

/-- Claim C9 (witness): the header line of the concrete zero-page run has
the header's arity. -/
theorem row_arity_matches_header_witness :
    headerRow ∈ runExport [] ∧ headerRow.length = header.length :=
  ⟨List.mem_singleton.mpr rfl,
   row_arity_matches_header.2.2 [] headerRow (List.mem_singleton.mpr rfl)⟩

/-- Claim C10: the header row is written before any page is consumed: after
any number of pages processed — in particular in the state a mid-fetch
failure would leave behind — the file begins with the complete header row;
consuming all pages gives the full run. -/
theorem header_written_before_pages :
    (∀ (pages : List Page) (k : Nat), (runPartial pages k).head? = some headerRow)
    ∧ ∀ pages : List Page, runPartial pages pages.length = runExport pages := by
  constructor
  · intro pages k
    unfold runPartial
    rw [foldl_processPage]
    rfl
  · intro pages
    unfold runPartial runExport
    rw [List.take_length]

end Coh
